import Mathlib

/-!
Shallow embedding of the two external price-feed adapters of the repository:
`TwelveDataApiPriceFeed` (Rule A) and `StatisticsNetherlandsPriceFeed`
(Rule B), both under
`packages/financial-templates-lib/src/price-feed/`.

Prices (`BN` big numbers) are modelled as `Int`.  The stateful classes
become explicit state records with pure transition functions: `update`
takes the injected clock's current time and the networker's (optional)
parsed JSON response as arguments and returns the new state, a flag
recording whether a network fetch was performed, and an `Except` result
standing for normal return versus a thrown error.
-/

namespace PriceFeed

/-- Big numbers (web3 BN) modelled as unbounded integers. -/
abbrev BN := Int

/-- A JavaScript value that is either a number or a string; used for the
TwelveData sample `date` field, which the source populates with the raw
`datetime` string from the response even though it is declared `number`. -/
inductive JsVal where
  | num (n : Int)
  | str (s : String)
deriving DecidableEq, Repr

/-- Numeric value of a list of decimal digit characters (most significant
first), with an accumulator. -/
def digitsVal : List Char → Nat → Nat
  | [], acc => acc
  | c :: cs, acc => digitsVal cs (acc * 10 + (c.toNat - 48))

/-- Splits a character list on a separator character (the pieces between
occurrences, in order). -/
def splitOnChar (sep : Char) : List Char → List (List Char)
  | [] => [[]]
  | c :: cs =>
      let r := splitOnChar sep cs
      if c = sep then [] :: r
      else
        match r with
        | [] => [[c]]
        | h :: t => (c :: h) :: t

/-- JS `Number(s)` coercion restricted to the string shapes this code
compares: the empty string coerces to 0, an integer-numeral string (with
optional leading minus) to its value, and every other string — in
particular a datetime such as "2023-02-10 15:30:00" — is NaN, modelled as
`none`. -/
def jsStringToNum (s : String) : Option Int :=
  match s.data with
  | [] => some 0
  | c :: cs =>
      let body := if c = '-' then cs else c :: cs
      if body ≠ [] ∧ body.all Char.isDigit then
        some (if c = '-' then -((digitsVal body 0 : Nat) : Int)
              else ((digitsVal body 0 : Nat) : Int))
      else none

/-- JS `time < d` where `time` is a number and `d` a number-or-string.
When `d` is a string it is coerced with `Number`; a comparison against
NaN is false. -/
def jsLtNum (time : Int) (d : JsVal) : Bool :=
  match d with
  | .num n => time < n
  | .str s =>
      match jsStringToNum s with
      | some n => time < n
      | none => false

/-- JS truthiness of a sample's `date` field: a number is truthy when
nonzero, a string when nonempty. -/
def jsTruthy (d : JsVal) : Bool :=
  match d with
  | .num n => n ≠ 0
  | .str s => s ≠ ""

/-- JS `Array.prototype.findIndex`: index of the first element satisfying
the predicate, `-1` when there is none. -/
def jsFindIndex {α : Type} (p : α → Bool) : List α → Int
  | [] => -1
  | x :: xs =>
      if p x then 0
      else
        let r := jsFindIndex p xs
        if r < 0 then -1 else r + 1

/-! ### Fixed-decimal conversion -/

/-- Modelled from the spec: `parseFixed` comes from `@uma/common`, which is
code of this repository not under `src/`.  Per the spec's §4.3 boundary it
parses a decimal string into an integer scaled by `10 ^ decimals`,
failing when the string is not a decimal numeral or its fractional part
carries more digits than `decimals`. -/
def parseFixed (value : String) (decimals : Nat) : Option Int :=
  let chars := value.data
  let neg := chars.head? = some '-'
  let body := if chars.head? = some '-' then chars.tail else chars
  let sign : Int := if neg then -1 else 1
  match splitOnChar '.' body with
  | [w] =>
      if w ≠ [] ∧ w.all Char.isDigit then
        some (sign * ((digitsVal w 0 : Nat) : Int) * (10 : Int) ^ decimals)
      else none
  | [w, f] =>
      if w.all Char.isDigit ∧ f ≠ [] ∧ f.all Char.isDigit ∧ f.length ≤ decimals then
        some (sign * (((digitsVal w 0 : Nat) : Int) * (10 : Int) ^ decimals
          + ((digitsVal f 0 : Nat) : Int) * (10 : Int) ^ (decimals - f.length)))
      else none
  | _ => none

/-- `convertPriceFeedDecimals` as defined in both adapters' constructors:
the raw string is truncated to its first `priceFeedDecimals` characters
(`substring(0, priceFeedDecimals)`) and then handed to `parseFixed` with
scale `priceFeedDecimals`. -/
def convertPriceFeedDecimals (priceFeedDecimals : Nat) (number : String) : Option Int :=
  parseFixed (number.take priceFeedDecimals) priceFeedDecimals

/-! ### Calendar arithmetic (JS `Date` / moment, modelled in UTC) -/

/-- Days since 1970-01-01 of the civil date (y, m, d), months 1..12
(Hinnant's algorithm with floor division). -/
def daysFromCivil (y m d : Int) : Int :=
  let y' := if m ≤ 2 then y - 1 else y
  let era := Int.ediv y' 400
  let yoe := y' - era * 400
  let doy := Int.ediv (153 * (if m > 2 then m - 3 else m + 9) + 2) 5 + d - 1
  let doe := yoe * 365 + Int.ediv yoe 4 - Int.ediv yoe 100 + doy
  era * 146097 + doe - 719468

/-- Civil date (y, m, d) of a count of days since 1970-01-01 (inverse of
`daysFromCivil`). -/
def civilFromDays (z : Int) : Int × Int × Int :=
  let z' := z + 719468
  let era := Int.ediv z' 146097
  let doe := z' - era * 146097
  let yoe := Int.ediv (doe - Int.ediv doe 1460 + Int.ediv doe 36524
    - Int.ediv doe 146096) 365
  let y := yoe + era * 400
  let doy := doe - (365 * yoe + Int.ediv yoe 4 - Int.ediv yoe 100)
  let mp := Int.ediv (5 * doy + 2) 153
  let d := doy - Int.ediv (153 * mp + 2) 5 + 1
  let m := if mp < 10 then mp + 3 else mp - 9
  (if m ≤ 2 then y + 1 else y, m, d)

/-- Two-digit zero padding of a (small nonnegative) integer. -/
def pad2 (n : Int) : String :=
  if n < 10 then "0" ++ toString n else toString n

/-- `_secondToDate` of the StatisticsNetherlands adapter:
`moment.unix(s).format("YYYY-MM-DD")`, with the process timezone modelled
as UTC. -/
def secondToDate (s : Int) : String :=
  match civilFromDays (Int.ediv s 86400) with
  | (y, m, d) => toString y ++ "-" ++ pad2 m ++ "-" ++ pad2 d

/-- `formatDate` of the StatisticsNetherlands adapter: re-parses a
"YYYY-MM-DD" string and renders year ++ "MM" ++ two-digit month; on the
strings produced by `secondToDate` this is string slicing. -/
def formatDate (startDate : String) : String :=
  startDate.take 4 ++ "MM" ++ (startDate.drop 5).take 2

/-- JS `Number` of a digit string such as "01" (leading zeros allowed);
the adapters only apply it to digit slices. -/
def digitsToInt (s : String) : Int :=
  if s.data ≠ [] ∧ s.data.all Char.isDigit then ((digitsVal s.data 0 : Nat) : Int) else 0

/-- JS `String.prototype.trim`: strips leading and trailing whitespace. -/
def jsTrim (s : String) : String :=
  String.mk
    (((s.data.dropWhile Char.isWhitespace).reverse.dropWhile Char.isWhitespace).reverse)

/-- `convertFormattedDateToTimestamp` of the StatisticsNetherlands
adapter: from a period label "YYYYMMmm" it takes `slice(0,4)` as year and
`slice(6,8)` as month and builds `Date.UTC(year, month, 22, 2, 0, 0)` in
Unix seconds.  JS `Date.UTC` months are 0-based with overflow
normalisation, so the label's 1-based month lands on the 22nd of the
FOLLOWING month, 02:00 UTC. -/
def convertFormattedDateToTimestamp (formattedDate : String) : Int :=
  let year := digitsToInt (formattedDate.take 4)
  let month := digitsToInt ((formattedDate.drop 6).take 2)
  let y := year + Int.ediv month 12
  let m := Int.emod month 12 + 1
  86400 * daysFromCivil y m 22 + 7200

/-! ### Error taxonomy -/

/-- The errors thrown by the adapters, named per the spec's §7 taxonomy.
`dataSourceError` carries the request URL and the stringified raw
response, as the thrown message does in the source. -/
inductive FeedError where
  | dataSourceError (url : String) (rawResponse : String)
  | uninitializedFeedError
  | emptySeriesError
  | beforeLookbackWindowError
  | missingCurrentPriceError
  | conversionError
deriving DecidableEq, Repr

/-- The resolvers' first guard is `this.lastUpdateTime === undefined`; the
field is declared `number | null` and initialized to `null`, so the test
is false in every reachable state.  Modelled as the constant-false test it
is at runtime. -/
def lastUpdateTimeIsUndefined (_lu : Option Int) : Bool := false

/-! ### TwelveData adapter (`TweleveDataApiPriceFeed`) -/

/-- One record of the TwelveData response's `values` array (only the
fields the adapter reads). -/
structure TDRawValue where
  datetime : String
  close : String
deriving DecidableEq, Repr

/-- The TwelveData response body: the adapter only reads `values`, which
may be missing. -/
structure TDResponse where
  values : Option (List TDRawValue)
deriving DecidableEq, Repr

/-- A stored TwelveData sample.  The source declares
`{ date: number; closePrice: BN }` but assigns `date: dailyData.datetime`,
the raw response string, so the field is modelled as a JS value. -/
structure TDSample where
  date : JsVal
  closePrice : BN
deriving DecidableEq, Repr

/-- Construction-time configuration of the TwelveData adapter. -/
structure TDConfig where
  lookback : Int
  priceFeedDecimals : Nat := 18
  minTimeBetweenUpdates : Int := 43200
deriving DecidableEq, Repr

/-- Mutable state of a TwelveData adapter instance. -/
structure TDState where
  priceHistory : List TDSample
  currentPrice : Option BN
  lastUpdateTime : Option Int
deriving DecidableEq, Repr

/-- The adapter's state right after construction. -/
def TDState.init : TDState := ⟨[], none, none⟩

/-- The request URL the TwelveData adapter sends: the source hardcodes
this string (its computed lookback window is not interpolated). -/
def tdUrl : String :=
  "https://api.twelvedata.com/time_series?apikey=8c28e2ab6088439e92a60426194469af&interval=1h&symbol=URTH&start_date=2023-02-10 09:30:00&end_date=2023-02-13 20:00:00"

/-- The throttle test of `TweleveDataApiPriceFeed.update`:
`lastUpdateTime !== null && lastUpdateTime + minTimeBetweenUpdates > currentTime`. -/
def tdThrottled (cfg : TDConfig) (st : TDState) (currentTime : Int) : Bool :=
  match st.lastUpdateTime with
  | some t => t + cfg.minTimeBetweenUpdates > currentTime
  | none => false

/-- Response validation of step 3 of `update`:
`!historyResponse?.values || historyResponse.values.length === 0` rejects
an absent response, a response without a `values` array, and an empty
`values` array. -/
def tdRawValues (historyResponse : Option TDResponse) : Option (List TDRawValue) :=
  match historyResponse with
  | none => none
  | some r =>
      match r.values with
      | none => none
      | some [] => none
      | some vs => some vs

/-- `TweleveDataApiPriceFeed.update`.  Arguments stand for the injected
clock (`currentTime`) and the networker's parsed JSON (`historyResponse`,
`none` when absent).  Returns the new state, whether a network fetch was
performed, and normal return versus thrown error.  Step 4 maps each raw
record to `{ date: dailyData.datetime, closePrice: convert(close) }` — the
raw datetime string is stored unchanged — and step 5 sets `currentPrice`
to the LAST mapped element's price, replaces the history and stamps
`lastUpdateTime := currentTime`.  A conversion failure is a thrown
exception before any mutation. -/
def TDState.update (cfg : TDConfig) (st : TDState) (currentTime : Int)
    (historyResponse : Option TDResponse) :
    TDState × Bool × Except FeedError Unit :=
  if tdThrottled cfg st currentTime then (st, false, .ok ())
  else
    match tdRawValues historyResponse with
    | none => (st, true, .error (.dataSourceError tdUrl (reprStr historyResponse)))
    | some vals =>
        match vals.mapM (fun dailyData =>
            (convertPriceFeedDecimals cfg.priceFeedDecimals dailyData.close).map
              (fun p => TDSample.mk (.str dailyData.datetime) p)) with
        | none => (st, true, .error .conversionError)
        | some newHistoricalPricePeriods =>
            match newHistoricalPricePeriods.getLast? with
            | none => (st, true, .error .conversionError)
            | some lastPeriod =>
                (⟨newHistoricalPricePeriods, some lastPeriod.closePrice,
                  some currentTime⟩, true, .ok ())

/-- `TweleveDataApiPriceFeed.getCurrentPrice`. -/
def TDState.getCurrentPrice (st : TDState) : Option BN :=
  st.currentPrice

/-- `TweleveDataApiPriceFeed.getHistoricalPrice` (Rule A): after the dead
undefined-guard, find the first sample with a truthy `date` (else the
empty-series error), reject `time < firstPrice.date` (before-lookback),
then `find` the first sample with `time < date`; no match falls back to
`currentPrice` (throwing when it is null), a match returns the matched
sample's own `closePrice`. -/
def TDState.getHistoricalPrice (st : TDState) (time : Int) : Except FeedError BN :=
  if lastUpdateTimeIsUndefined st.lastUpdateTime then .error .uninitializedFeedError
  else
    match st.priceHistory.find? (fun s => jsTruthy s.date) with
    | none => .error .emptySeriesError
    | some firstPrice =>
        if jsLtNum time firstPrice.date then .error .beforeLookbackWindowError
        else
          match st.priceHistory.find? (fun pricePeriod => jsLtNum time pricePeriod.date) with
          | none =>
              match st.currentPrice with
              | none => .error .missingCurrentPriceError
              | some c => .ok c
          | some m => .ok m.closePrice

/-! ### StatisticsNetherlands adapter (`StatisticsNetherlandsPriceFeed`) -/

/-- One record of the StatisticsNetherlands response's `value` array (only
the fields the adapter reads). -/
structure SNRawValue where
  Periods : String
  PriceIndexOfExistingOwnHomes_1 : String
deriving DecidableEq, Repr

/-- The StatisticsNetherlands response body: the adapter only reads
`value`, which may be missing. -/
structure SNResponse where
  value : Option (List SNRawValue)
deriving DecidableEq, Repr

/-- A stored StatisticsNetherlands sample `{ date: number; price: BN }`. -/
structure SNSample where
  date : Int
  price : BN
deriving DecidableEq, Repr

/-- Construction-time configuration of the StatisticsNetherlands adapter. -/
structure SNConfig where
  lookback : Int
  priceFeedDecimals : Nat := 18
  minTimeBetweenUpdates : Int := 900
deriving DecidableEq, Repr

/-- Mutable state of a StatisticsNetherlands adapter instance. -/
structure SNState where
  priceHistory : List SNSample
  currentPrice : Option BN
  lastUpdateTime : Option Int
deriving DecidableEq, Repr

/-- The adapter's state right after construction. -/
def SNState.init : SNState := ⟨[], none, none⟩

/-- The request URL of the StatisticsNetherlands adapter, built from the
formatted start of the lookback window. -/
def snUrl (cfg : SNConfig) (currentTime : Int) : String :=
  "https://opendata.cbs.nl/ODataApi/odata/83906ENG/UntypedDataSet?$filter=Periods ge \x27"
    ++ formatDate (secondToDate (currentTime - cfg.lookback)) ++ "\x27"

/-- The throttle test of `StatisticsNetherlandsPriceFeed.update`. -/
def snThrottled (cfg : SNConfig) (st : SNState) (currentTime : Int) : Bool :=
  match st.lastUpdateTime with
  | some t => t + cfg.minTimeBetweenUpdates > currentTime
  | none => false

/-- Response validation of step 3 of `update`:
`!historyResponse?.value || historyResponse.value.length === 0`. -/
def snRawValues (historyResponse : Option SNResponse) : Option (List SNRawValue) :=
  match historyResponse with
  | none => none
  | some r =>
      match r.value with
      | none => none
      | some [] => none
      | some vs => some vs

/-- `StatisticsNetherlandsPriceFeed.update`: like the TwelveData variant,
except each record is mapped to
`{ date: convertFormattedDateToTimestamp(Periods),
   price: convert(PriceIndexOfExistingOwnHomes_1.trim()) }`. -/
def SNState.update (cfg : SNConfig) (st : SNState) (currentTime : Int)
    (historyResponse : Option SNResponse) :
    SNState × Bool × Except FeedError Unit :=
  if snThrottled cfg st currentTime then (st, false, .ok ())
  else
    match snRawValues historyResponse with
    | none => (st, true,
        .error (.dataSourceError (snUrl cfg currentTime) (reprStr historyResponse)))
    | some vals =>
        match vals.mapM (fun dailyData =>
            (convertPriceFeedDecimals cfg.priceFeedDecimals
                (jsTrim dailyData.PriceIndexOfExistingOwnHomes_1)).map
              (fun p => SNSample.mk (convertFormattedDateToTimestamp dailyData.Periods) p)) with
        | none => (st, true, .error .conversionError)
        | some newHistoricalPricePeriods =>
            match newHistoricalPricePeriods.getLast? with
            | none => (st, true, .error .conversionError)
            | some lastPeriod =>
                (⟨newHistoricalPricePeriods, some lastPeriod.price,
                  some currentTime⟩, true, .ok ())

/-- `StatisticsNetherlandsPriceFeed.getCurrentPrice`. -/
def SNState.getCurrentPrice (st : SNState) : Option BN :=
  st.currentPrice

/-- The Rule-B match selection: from the `findIndex` result, take the
sample at `matchedIndex - 1` when `matchedIndex > 0`, else no match. -/
def snMatchAt (priceHistory : List SNSample) (matchedIndex : Int) : Option SNSample :=
  if matchedIndex > 0 then priceHistory[(matchedIndex - 1).toNat]? else none

/-- `StatisticsNetherlandsPriceFeed.getHistoricalPrice` (Rule B): as the
TwelveData resolver, but `findIndex` locates the first sample with
`time < date` and the sample immediately BEFORE it is returned; when the
matched index is 0 or -1 there is no match and `currentPrice` is the
fallback (throwing when it is null). -/
def SNState.getHistoricalPrice (st : SNState) (time : Int) : Except FeedError BN :=
  if lastUpdateTimeIsUndefined st.lastUpdateTime then .error .uninitializedFeedError
  else
    match st.priceHistory.find? (fun s => decide (s.date ≠ 0)) with
    | none => .error .emptySeriesError
    | some firstPrice =>
        if time < firstPrice.date then .error .beforeLookbackWindowError
        else
          let matchedIndex := jsFindIndex (fun pricePeriod =>
            decide (time < pricePeriod.date)) st.priceHistory
          match snMatchAt st.priceHistory matchedIndex with
          | none =>
              match st.currentPrice with
              | none => .error .missingCurrentPriceError
              | some c => .ok c
          | some m => .ok m.price

/-! ### Observation helpers used by the claims -/

/-- A TwelveData sample with a numeric (integer-timestamp) date: the
series shape the spec's scenarios quantify over. -/
def tdNumSample (x : Int × Int) : TDSample := ⟨.num x.1, x.2⟩

/-- The newest sample of a series: one with the greatest timestamp (the
earliest among ties).  Spec-side observation used to state claim C3. -/
def newestSample? : List SNSample → Option SNSample
  | [] => none
  | s :: rest =>
      match newestSample? rest with
      | none => some s
      | some t => if s.date < t.date then some t else some s

/-- A response whose samples arrive newest-first (time descending), the
ordering the TwelveData source's comment documents for its API; used to
test claim C3. -/
def snRespDescending : Option SNResponse :=
  some ⟨some [⟨"2023MM05", "20"⟩, ⟨"2023MM01", "10"⟩]⟩

/-- The state left by a successful update on the descending response. -/
def snStateDescending : SNState :=
  (SNState.update ⟨0, 18, 900⟩ SNState.init 1000000000 snRespDescending).1

/-! ### Helper lemmas -/

theorem find?_eq_head {α : Type} (q : α → Bool) (l : List α)
    (h : ∀ x ∈ l, q x = true) : l.find? q = l.head? := by
  cases l with
  | nil => rfl
  | cons x xs =>
      rw [List.find?_cons_of_pos _ (h x (List.mem_cons_self x xs)), List.head?_cons]

theorem find?_append_first {α : Type} (p : α → Bool) (l₁ l₂ : List α) (b : α)
    (h₁ : ∀ x ∈ l₁, p x = false) (hb : p b = true) :
    (l₁ ++ b :: l₂).find? p = some b := by
  induction l₁ with
  | nil => simpa using List.find?_cons_of_pos _ hb
  | cons a t ih =>
      rw [List.cons_append, List.find?_cons_of_neg _ (by simp [h₁ a (List.mem_cons_self a t)])]
      exact ih fun x hx => h₁ x (List.mem_cons_of_mem a hx)

theorem jsFindIndex_neg_one {α : Type} (p : α → Bool) (l : List α)
    (h : ∀ x ∈ l, p x = false) : jsFindIndex p l = -1 := by
  induction l with
  | nil => rfl
  | cons a t ih =>
      have ht := ih fun x hx => h x (List.mem_cons_of_mem a hx)
      simp [jsFindIndex, h a (List.mem_cons_self a t), ht]

theorem jsFindIndex_append {α : Type} (p : α → Bool) (l₁ l₂ : List α) (b : α)
    (h₁ : ∀ x ∈ l₁, p x = false) (hb : p b = true) :
    jsFindIndex p (l₁ ++ b :: l₂) = (l₁.length : Int) := by
  induction l₁ with
  | nil => simp [jsFindIndex, hb]
  | cons a t ih =>
      have ht := ih fun x hx => h₁ x (List.mem_cons_of_mem a hx)
      simp only [List.cons_append, jsFindIndex, h₁ a (List.mem_cons_self a t),
        Bool.false_eq_true, if_false, List.length_cons]
      rw [show t.append (b :: l₂) = t ++ b :: l₂ from rfl, ht]
      omega

theorem mapM_option_forall {α β : Type} (f : α → Option β) :
    ∀ (l : List α) (l' : List β), l.mapM f = some l' →
      ∀ y ∈ l', ∃ x ∈ l, f x = some y := by
  intro l
  induction l with
  | nil =>
      intro l' h y hy
      simp only [List.mapM_nil, pure, Option.some.injEq] at h
      subst h; simp at hy
  | cons a t ih =>
      intro l' h y hy
      rw [List.mapM_cons] at h
      cases hfa : f a with
      | none => rw [hfa] at h; simp at h
      | some b =>
          rw [hfa] at h
          cases hmt : t.mapM f with
          | none => rw [hmt] at h; simp at h
          | some bs =>
              rw [hmt] at h
              simp only [Option.bind_eq_bind, Option.some_bind, pure,
                Option.some.injEq] at h
              subst h
              rcases List.mem_cons.mp hy with rfl | hybs
              · exact ⟨a, List.mem_cons_self a t, hfa⟩
              · obtain ⟨x, hx, hfx⟩ := ih bs hmt y hybs
                exact ⟨x, List.mem_cons_of_mem a hx, hfx⟩

theorem le_date_getLast_of_sorted :
    ∀ (l : List SNSample) (lastS : SNSample), l.getLast? = some lastS →
      List.Sorted (· ≤ ·) (l.map SNSample.date) → ∀ s ∈ l, s.date ≤ lastS.date := by
  intro l
  induction l with
  | nil => intro lastS h; simp at h
  | cons x t ih =>
      intro lastS hl hs s hsmem
      cases t with
      | nil =>
          simp only [List.getLast?_singleton, Option.some.injEq] at hl
          subst hl
          rcases List.mem_singleton.mp hsmem with rfl
          exact le_refl _
      | cons y u =>
          rw [List.getLast?_cons_cons] at hl
          rw [List.map_cons] at hs
          have hparts := List.sorted_cons.mp hs
          have hxle : ∀ z ∈ y :: u, x.date ≤ z.date := fun z hz =>
            hparts.1 _ (List.mem_map_of_mem _ hz)
          rcases List.mem_cons.mp hsmem with rfl | hmem
          · exact le_trans (hxle y (List.mem_cons_self y u))
              (ih lastS hl hparts.2 y (List.mem_cons_self y u))
          · exact ih lastS hl hparts.2 s hmem

theorem tdUpdate_ok_lastUpdateTime (cfg : TDConfig) (st : TDState) (now : Int)
    (resp : Option TDResponse) (st' : TDState)
    (h : TDState.update cfg st now resp = (st', true, .ok ())) :
    st'.lastUpdateTime = some now := by
  rw [TDState.update] at h
  split at h
  · simp at h
  · split at h
    · simp at h
    · split at h
      · simp at h
      · split at h
        · simp at h
        · simp only [Prod.mk.injEq] at h
          rw [← h.1]

theorem snUpdate_ok_lastUpdateTime (cfg : SNConfig) (st : SNState) (now : Int)
    (resp : Option SNResponse) (st' : SNState)
    (h : SNState.update cfg st now resp = (st', true, .ok ())) :
    st'.lastUpdateTime = some now := by
  rw [SNState.update] at h
  split at h
  · simp at h
  · split at h
    · simp at h
    · split at h
      · simp at h
      · split at h
        · simp at h
        · simp only [Prod.mk.injEq] at h
          rw [← h.1]

theorem tdUpdate_throttle_skip (cfg : TDConfig) (st : TDState) (t now : Int)
    (resp : Option TDResponse) (h1 : st.lastUpdateTime = some t)
    (h2 : t + cfg.minTimeBetweenUpdates > now) :
    TDState.update cfg st now resp = (st, false, .ok ()) := by
  rw [TDState.update, if_pos]
  simp [tdThrottled, h1, h2]

theorem snUpdate_throttle_skip (cfg : SNConfig) (st : SNState) (t now : Int)
    (resp : Option SNResponse) (h1 : st.lastUpdateTime = some t)
    (h2 : t + cfg.minTimeBetweenUpdates > now) :
    SNState.update cfg st now resp = (st, false, .ok ()) := by
  rw [SNState.update, if_pos]
  simp [snThrottled, h1, h2]

theorem mapM_option_project {α β γ : Type} (f : α → Option β) (proj : β → γ)
    (pf : α → γ) (hcomm : ∀ x y, f x = some y → proj y = pf x) :
    ∀ (l : List α) (l' : List β), l.mapM f = some l' → l'.map proj = l.map pf := by
  intro l
  induction l with
  | nil =>
      intro l' h
      simp only [List.mapM_nil, pure, Option.some.injEq] at h
      subst h; rfl
  | cons a t ih =>
      intro l' h
      rw [List.mapM_cons] at h
      cases hfa : f a with
      | none => rw [hfa] at h; simp at h
      | some b =>
          rw [hfa] at h
          cases hmt : t.mapM f with
          | none => rw [hmt] at h; simp at h
          | some bs =>
              rw [hmt] at h
              simp only [Option.bind_eq_bind, Option.some_bind, pure,
                Option.some.injEq] at h
              subst h
              simp only [List.map_cons, hcomm a b hfa, ih bs hmt]

theorem tdUpdate_ok_shape (cfg : TDConfig) (st : TDState) (now : Int)
    (resp : Option TDResponse) (st' : TDState)
    (h : TDState.update cfg st now resp = (st', true, .ok ())) :
    ∃ vals periods lastP, tdRawValues resp = some vals ∧
      vals.mapM (fun dailyData =>
        (convertPriceFeedDecimals cfg.priceFeedDecimals dailyData.close).map
          (fun p => TDSample.mk (.str dailyData.datetime) p)) = some periods ∧
      periods.getLast? = some lastP ∧
      st' = ⟨periods, some lastP.closePrice, some now⟩ := by
  rw [TDState.update] at h
  split at h
  · simp at h
  · split at h
    · simp at h
    · next vals hvals =>
        split at h
        · simp at h
        · next periods hperiods =>
            split at h
            · simp at h
            · next lastP hlast =>
                simp only [Prod.mk.injEq] at h
                exact ⟨vals, periods, lastP, hvals, hperiods, hlast, h.1.symm⟩

theorem snUpdate_ok_shape (cfg : SNConfig) (st : SNState) (now : Int)
    (resp : Option SNResponse) (st' : SNState)
    (h : SNState.update cfg st now resp = (st', true, .ok ())) :
    ∃ vals periods lastP, snRawValues resp = some vals ∧
      vals.mapM (fun dailyData =>
        (convertPriceFeedDecimals cfg.priceFeedDecimals
            (jsTrim dailyData.PriceIndexOfExistingOwnHomes_1)).map
          (fun p => SNSample.mk (convertFormattedDateToTimestamp dailyData.Periods) p))
        = some periods ∧
      periods.getLast? = some lastP ∧
      st' = ⟨periods, some lastP.price, some now⟩ := by
  rw [SNState.update] at h
  split at h
  · simp at h
  · split at h
    · simp at h
    · next vals hvals =>
        split at h
        · simp at h
        · next periods hperiods =>
            split at h
            · simp at h
            · next lastP hlast =>
                simp only [Prod.mk.injEq] at h
                exact ⟨vals, periods, lastP, hvals, hperiods, hlast, h.1.symm⟩

/-! ### Claims -/

/-- Claim C5: for every configuration and clock, when `update()` runs
with `lastUpdateTime` set and `lastUpdateTime + minTimeBetweenUpdates >
currentTime`, it performs no network fetch and returns with `series`,
`currentPrice` and `lastUpdateTime` unchanged; consequently a second
`update()` within `minTimeBetweenUpdates` seconds of a successful one
performs no second fetch — two calls, exactly one fetch — for both
adapters. -/
theorem c5_throttle_one_fetch :
    (∀ (cfg : TDConfig) (st : TDState) (t now : Int) (resp : Option TDResponse),
      st.lastUpdateTime = some t → t + cfg.minTimeBetweenUpdates > now →
      TDState.update cfg st now resp = (st, false, .ok ())) ∧
    (∀ (cfg : SNConfig) (st : SNState) (t now : Int) (resp : Option SNResponse),
      st.lastUpdateTime = some t → t + cfg.minTimeBetweenUpdates > now →
      SNState.update cfg st now resp = (st, false, .ok ())) ∧
    (∀ (cfg : TDConfig) (st₀ st₁ : TDState) (t₁ t₂ : Int)
        (r₁ r₂ : Option TDResponse),
      TDState.update cfg st₀ t₁ r₁ = (st₁, true, .ok ()) →
      t₁ + cfg.minTimeBetweenUpdates > t₂ →
      TDState.update cfg st₁ t₂ r₂ = (st₁, false, .ok ())) ∧
    (∀ (cfg : SNConfig) (st₀ st₁ : SNState) (t₁ t₂ : Int)
        (r₁ r₂ : Option SNResponse),
      SNState.update cfg st₀ t₁ r₁ = (st₁, true, .ok ()) →
      t₁ + cfg.minTimeBetweenUpdates > t₂ →
      SNState.update cfg st₁ t₂ r₂ = (st₁, false, .ok ())) := by
  refine ⟨fun cfg st t now resp h1 h2 => tdUpdate_throttle_skip cfg st t now resp h1 h2,
    fun cfg st t now resp h1 h2 => snUpdate_throttle_skip cfg st t now resp h1 h2,
    fun cfg st₀ st₁ t₁ t₂ r₁ r₂ hupd hlt =>
      tdUpdate_throttle_skip cfg st₁ t₁ t₂ r₂
        (tdUpdate_ok_lastUpdateTime cfg st₀ t₁ r₁ st₁ hupd) hlt,
    fun cfg st₀ st₁ t₁ t₂ r₁ r₂ hupd hlt =>
      snUpdate_throttle_skip cfg st₁ t₁ t₂ r₂
        (snUpdate_ok_lastUpdateTime cfg st₀ t₁ r₁ st₁ hupd) hlt⟩

/-- Witness for C5 at concrete inputs: a throttled second call at time 200
after a successful fetching update at time 100 (TwelveData with a one-row
response, StatisticsNetherlands likewise) is a fetch-free no-op, and the
direct throttle instances hold as well. -/
theorem c5_throttle_one_fetch_witness :
    TDState.update ⟨7, 18, 43200⟩ ⟨[], some 5, some 100⟩ 200 none
      = (⟨[], some 5, some 100⟩, false, .ok ()) ∧
    SNState.update ⟨7, 18, 900⟩ ⟨[], some 5, some 100⟩ 200 none
      = (⟨[], some 5, some 100⟩, false, .ok ()) ∧
    TDState.update ⟨7, 18, 43200⟩
      ⟨[⟨.str "2023-02-10 15:30:00", 10 ^ 18⟩], some (10 ^ 18), some 100⟩ 200 none
      = (⟨[⟨.str "2023-02-10 15:30:00", 10 ^ 18⟩], some (10 ^ 18), some 100⟩,
         false, .ok ()) ∧
    SNState.update ⟨7, 18, 900⟩
      ⟨[⟨1677031200, 10 ^ 18⟩], some (10 ^ 18), some 100⟩ 200 none
      = (⟨[⟨1677031200, 10 ^ 18⟩], some (10 ^ 18), some 100⟩, false, .ok ()) := by
  refine ⟨c5_throttle_one_fetch.1 _ _ 100 200 none rfl (by decide),
    c5_throttle_one_fetch.2.1 _ _ 100 200 none rfl (by decide),
    c5_throttle_one_fetch.2.2.1 ⟨7, 18, 43200⟩ TDState.init _ 100 200
      (some ⟨some [⟨"2023-02-10 15:30:00", "1"⟩]⟩) none ?_ (by decide),
    c5_throttle_one_fetch.2.2.2 ⟨7, 18, 900⟩ SNState.init _ 100 200
      (some ⟨some [⟨"2023MM01", "1"⟩]⟩) none ?_ (by decide)⟩
  · rfl
  · rfl

/-- Claim C6: for both adapters, when the throttle does not skip and the
fetched response is absent, lacks the sample array, or carries an empty
sample array — exactly the shapes the validation predicate rejects, per
the first and third conjuncts — `update` fails with a `DataSourceError`
carrying the request URL and the raw response, and the state (hence
`getCurrentPrice()`) keeps its pre-call value. -/
theorem c6_data_source_error_no_mutation :
    (∀ resp : Option TDResponse, tdRawValues resp = none ↔
      resp = none ∨ ∃ r, resp = some r ∧ (r.values = none ∨ r.values = some [])) ∧
    (∀ (cfg : TDConfig) (st : TDState) (now : Int) (resp : Option TDResponse),
      tdThrottled cfg st now = false → tdRawValues resp = none →
      TDState.update cfg st now resp
        = (st, true, .error (.dataSourceError tdUrl (reprStr resp))) ∧
      (TDState.update cfg st now resp).1.getCurrentPrice = st.getCurrentPrice) ∧
    (∀ resp : Option SNResponse, snRawValues resp = none ↔
      resp = none ∨ ∃ r, resp = some r ∧ (r.value = none ∨ r.value = some [])) ∧
    (∀ (cfg : SNConfig) (st : SNState) (now : Int) (resp : Option SNResponse),
      snThrottled cfg st now = false → snRawValues resp = none →
      SNState.update cfg st now resp
        = (st, true, .error (.dataSourceError (snUrl cfg now) (reprStr resp))) ∧
      (SNState.update cfg st now resp).1.getCurrentPrice = st.getCurrentPrice) := by
  refine ⟨?_, ?_, ?_, ?_⟩
  · intro resp
    cases resp with
    | none => simp [tdRawValues]
    | some r =>
        cases hv : r.values with
        | none => simp [tdRawValues, hv]
        | some vs => cases vs with
          | nil => simp [tdRawValues, hv]
          | cons v vs' => simp [tdRawValues, hv]
  · intro cfg st now resp hth hrv
    have heq : TDState.update cfg st now resp
        = (st, true, .error (.dataSourceError tdUrl (reprStr resp))) := by
      rw [TDState.update, if_neg (by simp [hth]), hrv]
    exact ⟨heq, by rw [heq]⟩
  · intro resp
    cases resp with
    | none => simp [snRawValues]
    | some r =>
        cases hv : r.value with
        | none => simp [snRawValues, hv]
        | some vs => cases vs with
          | nil => simp [snRawValues, hv]
          | cons v vs' => simp [snRawValues, hv]
  · intro cfg st now resp hth hrv
    have heq : SNState.update cfg st now resp
        = (st, true, .error (.dataSourceError (snUrl cfg now) (reprStr resp))) := by
      rw [SNState.update, if_neg (by simp [hth]), hrv]
    exact ⟨heq, by rw [heq]⟩

/-- Witness for C6 at concrete inputs: on a fresh TwelveData feed an
absent response, and on a fresh StatisticsNetherlands feed a response with
an empty sample array, each fail with the `DataSourceError` carrying the
request URL and raw response and leave the state unchanged. -/
theorem c6_data_source_error_no_mutation_witness :
    (tdRawValues none = none ↔
      (none : Option TDResponse) = none ∨ ∃ r, (none : Option TDResponse) = some r
        ∧ (r.values = none ∨ r.values = some [])) ∧
    (TDState.update ⟨7, 18, 43200⟩ TDState.init 1000 none
      = (TDState.init, true,
          .error (.dataSourceError tdUrl (reprStr (none : Option TDResponse)))) ∧
      (TDState.update ⟨7, 18, 43200⟩ TDState.init 1000 none).1.getCurrentPrice
        = TDState.init.getCurrentPrice) ∧
    (SNState.update ⟨7, 18, 900⟩ SNState.init 1000 (some ⟨some []⟩)
      = (SNState.init, true,
          .error (.dataSourceError (snUrl ⟨7, 18, 900⟩ 1000)
            (reprStr (some (SNResponse.mk (some [])))))) ∧
      (SNState.update ⟨7, 18, 900⟩ SNState.init 1000 (some ⟨some []⟩)).1.getCurrentPrice
        = SNState.init.getCurrentPrice) :=
  ⟨c6_data_source_error_no_mutation.1 none,
   c6_data_source_error_no_mutation.2.1 ⟨7, 18, 43200⟩ TDState.init 1000 none rfl rfl,
   c6_data_source_error_no_mutation.2.2.2 ⟨7, 18, 900⟩ SNState.init 1000
     (some ⟨some []⟩) rfl rfl⟩

/-- Claim C8 (code bug): on a never-updated feed — the fresh state, where
`lastUpdateTime` is absent — both adapters' `getHistoricalPrice` fails for
every query time, but with the empty-series error rather than the
uninitialized-feed error the spec names: the source's guard compares
`lastUpdateTime` to `undefined` while the field is initialized to `null`,
so the guard never fires. -/
theorem c8_fresh_feed_wrong_error (time : Int) :
    TDState.init.getHistoricalPrice time = .error .emptySeriesError ∧
    SNState.init.getHistoricalPrice time = .error .emptySeriesError ∧
    TDState.init.getHistoricalPrice time ≠ .error .uninitializedFeedError ∧
    SNState.init.getHistoricalPrice time ≠ .error .uninitializedFeedError := by
  refine ⟨rfl, rfl, ?_, ?_⟩
  · intro h
    rw [show TDState.init.getHistoricalPrice time = .error .emptySeriesError from rfl] at h
    exact absurd (Except.error.inj h) (by simp)
  · intro h
    rw [show SNState.init.getHistoricalPrice time = .error .emptySeriesError from rfl] at h
    exact absurd (Except.error.inj h) (by simp)

/-- Claim C1: for the Rule-A adapter (TwelveData), on a series of
positively-timestamped samples ordered oldest-to-newest and a query time
strictly between the timestamps of two consecutive samples `a` and `b`,
`getHistoricalPrice` returns the price of `b` — the first sample whose
timestamp strictly exceeds `time`, the next sample after `time`. -/
theorem c1_rule_a_next_sample (l₁ l₂ : List (Int × Int)) (a b : Int × Int)
    (cp : Option BN) (lu : Option Int) (time : Int)
    (hpos : ∀ x ∈ l₁ ++ a :: b :: l₂, 0 < x.1)
    (hsorted : List.Sorted (· ≤ ·) ((l₁ ++ a :: b :: l₂).map Prod.fst))
    (ha : a.1 < time) (hb : time < b.1) :
    TDState.getHistoricalPrice
      ⟨(l₁ ++ a :: b :: l₂).map tdNumSample, cp, lu⟩ time = .ok b.2 := by
  have hle : ∀ x ∈ l₁, x.1 ≤ a.1 := by
    rw [List.map_append] at hsorted
    have h3 := (List.pairwise_append.mp hsorted).2.2
    intro x hx
    exact h3 _ (List.mem_map_of_mem _ hx) _ (by simp)
  have htruthy : ∀ s ∈ (l₁ ++ a :: b :: l₂).map tdNumSample,
      (fun s => jsTruthy s.date) s = true := by
    intro s hs
    obtain ⟨x, hxL, rfl⟩ := List.mem_map.mp hs
    have := hpos x hxL
    simp only [tdNumSample, jsTruthy, decide_eq_true_eq]
    omega
  have hfind1 : ((l₁ ++ a :: b :: l₂).map tdNumSample).find? (fun s => jsTruthy s.date)
      = ((l₁ ++ a :: b :: l₂).map tdNumSample).head? := find?_eq_head _ _ htruthy
  obtain ⟨x₀, hhead, hx₀⟩ : ∃ x₀,
      ((l₁ ++ a :: b :: l₂).map tdNumSample).head? = some (tdNumSample x₀)
      ∧ x₀.1 ≤ time := by
    cases l₁ with
    | nil => exact ⟨a, by simp, le_of_lt ha⟩
    | cons z t => exact ⟨z, by simp, le_trans (hle z (by simp)) (le_of_lt ha)⟩
  have hfalse : ∀ s ∈ (l₁ ++ [a]).map tdNumSample,
      (fun s => jsLtNum time s.date) s = false := by
    intro s hs
    obtain ⟨x, hx, rfl⟩ := List.mem_map.mp hs
    have hxt : x.1 ≤ time := by
      rcases List.mem_append.mp hx with h | h
      · exact le_trans (hle x h) (le_of_lt ha)
      · rw [List.mem_singleton.mp h]; exact le_of_lt ha
    simp only [tdNumSample, jsLtNum, decide_eq_false_iff_not, not_lt]
    exact hxt
  have hbtrue : (fun s => jsLtNum time s.date) (tdNumSample b) = true := by
    simp only [tdNumSample, jsLtNum, decide_eq_true_eq]
    exact hb
  have hfind2 : ((l₁ ++ a :: b :: l₂).map tdNumSample).find?
      (fun s => jsLtNum time s.date) = some (tdNumSample b) := by
    have hdecomp : (l₁ ++ a :: b :: l₂).map tdNumSample
        = (l₁ ++ [a]).map tdNumSample ++ tdNumSample b :: l₂.map tdNumSample := by
      simp [List.map_append]
    rw [hdecomp]
    exact find?_append_first _ _ _ _ hfalse hbtrue
  have hlt0 : jsLtNum time (tdNumSample x₀).date = false := by
    simp only [tdNumSample, jsLtNum, decide_eq_false_iff_not, not_lt]
    exact hx₀
  simp only [TDState.getHistoricalPrice, lastUpdateTimeIsUndefined,
    Bool.false_eq_true, if_false, hfind1, hhead, hlt0, hfind2]
  rfl

/-- Witness for C1 at the claim's scenario: on the series
[(100, 10), (200, 20), (300, 30)] with currentPrice 30,
`getHistoricalPrice(150)` of the Rule-A resolver returns 20. -/
theorem c1_rule_a_next_sample_witness :
    TDState.getHistoricalPrice
      ⟨[⟨.num 100, 10⟩, ⟨.num 200, 20⟩, ⟨.num 300, 30⟩], some 30, some 0⟩ 150
      = .ok 20 := by
  exact c1_rule_a_next_sample [] [(300, 30)] (100, 10) (200, 20) (some 30) (some 0)
    150 (by decide) (by decide) (by decide) (by decide)

/-- Claim C2: for the Rule-B adapter (StatisticsNetherlands), on a series
of positively-timestamped samples ordered oldest-to-newest and a query
time strictly between the timestamps of two consecutive samples `a` and
`b`, `getHistoricalPrice` returns the price of `a` — the sample
immediately before the first sample whose timestamp strictly exceeds
`time`; and when the first-exceeding index is 0 the match selection picks
no sample, so the resolver falls back to `currentPrice`. -/
theorem c2_rule_b_previous_sample (l₁ l₂ : List SNSample) (a b : SNSample)
    (cp : Option BN) (lu : Option Int) (time : Int)
    (hpos : ∀ x ∈ l₁ ++ a :: b :: l₂, 0 < x.date)
    (hsorted : List.Sorted (· ≤ ·) ((l₁ ++ a :: b :: l₂).map SNSample.date))
    (ha : a.date < time) (hb : time < b.date) :
    SNState.getHistoricalPrice ⟨l₁ ++ a :: b :: l₂, cp, lu⟩ time = .ok a.price ∧
    (∀ hist : List SNSample, snMatchAt hist 0 = none) := by
  refine ⟨?_, fun hist => rfl⟩
  have hle : ∀ x ∈ l₁, x.date ≤ a.date := by
    rw [List.map_append] at hsorted
    have h3 := (List.pairwise_append.mp hsorted).2.2
    intro x hx
    exact h3 _ (List.mem_map_of_mem _ hx) _ (by simp)
  have htruthy : ∀ s ∈ l₁ ++ a :: b :: l₂,
      (fun s : SNSample => decide (s.date ≠ 0)) s = true := by
    intro s hs
    have := hpos s hs
    simp only [decide_eq_true_eq]
    omega
  have hfind1 : (l₁ ++ a :: b :: l₂).find? (fun s => decide (s.date ≠ 0))
      = (l₁ ++ a :: b :: l₂).head? := find?_eq_head _ _ htruthy
  obtain ⟨x₀, hhead, hx₀⟩ : ∃ x₀, (l₁ ++ a :: b :: l₂).head? = some x₀
      ∧ x₀.date ≤ time := by
    cases l₁ with
    | nil => exact ⟨a, by simp, le_of_lt ha⟩
    | cons z t => exact ⟨z, by simp, le_trans (hle z (by simp)) (le_of_lt ha)⟩
  have hfalse : ∀ s ∈ l₁ ++ [a],
      (fun s : SNSample => decide (time < s.date)) s = false := by
    intro s hs
    have hxt : s.date ≤ time := by
      rcases List.mem_append.mp hs with h | h
      · exact le_trans (hle s h) (le_of_lt ha)
      · rw [List.mem_singleton.mp h]; exact le_of_lt ha
    simp only [decide_eq_false_iff_not, not_lt]
    exact hxt
  have hbtrue : (fun s : SNSample => decide (time < s.date)) b = true := by
    simp only [decide_eq_true_eq]
    exact hb
  have hidx : jsFindIndex (fun s : SNSample => decide (time < s.date))
      (l₁ ++ a :: b :: l₂) = ((l₁ ++ [a]).length : Int) := by
    have hdecomp : l₁ ++ a :: b :: l₂ = (l₁ ++ [a]) ++ b :: l₂ := by simp
    rw [hdecomp]
    exact jsFindIndex_append _ _ _ _ hfalse hbtrue
  have hmatch : snMatchAt (l₁ ++ a :: b :: l₂) ((l₁ ++ [a]).length : Int)
      = some a := by
    rw [snMatchAt, if_pos (by simp)]
    have hn : (((l₁ ++ [a]).length : Int) - 1).toNat = l₁.length := by
      simp
    rw [hn, List.getElem?_append_right (le_refl l₁.length)]
    simp
  have hlt0 : decide (time < x₀.date) = false := by
    simp only [decide_eq_false_iff_not, not_lt]
    exact hx₀
  simp only [SNState.getHistoricalPrice, lastUpdateTimeIsUndefined,
    Bool.false_eq_true, if_false, hfind1, hhead, hidx, hmatch]
  rw [if_neg (not_lt.mpr hx₀)]

/-- Witness for C2 at the claim's scenario: on the series
[(100, 10), (200, 20), (300, 30)] with currentPrice 30,
`getHistoricalPrice(150)` of the Rule-B resolver returns 10, and the
index-0 match selection is empty. -/
theorem c2_rule_b_previous_sample_witness :
    SNState.getHistoricalPrice
      ⟨[⟨100, 10⟩, ⟨200, 20⟩, ⟨300, 30⟩], some 30, some 0⟩ 150 = .ok 10 ∧
    snMatchAt [⟨100, 10⟩] 0 = none := by
  have h := c2_rule_b_previous_sample [] [⟨300, 30⟩] ⟨100, 10⟩ ⟨200, 20⟩
    (some 30) (some 0) 150 (by decide) (by decide) (by decide) (by decide)
  exact ⟨h.1, h.2 _⟩

/-- Claim C4: for both adapters, on a non-empty series of
positively-timestamped samples and a query time at or after every
sample's timestamp (equivalently, at or after the newest one's),
`getHistoricalPrice` agrees with `getCurrentPrice()` when the current
price is present and fails with `MissingCurrentPriceError` when it is
absent. -/
theorem c4_at_or_after_newest :
    (∀ (x : Int × Int) (ys : List (Int × Int)) (cp : Option BN) (lu : Option Int)
        (time : Int),
      (∀ z ∈ x :: ys, 0 < z.1 ∧ z.1 ≤ time) →
      TDState.getHistoricalPrice ⟨(x :: ys).map tdNumSample, cp, lu⟩ time
        = (TDState.getCurrentPrice ⟨(x :: ys).map tdNumSample, cp, lu⟩).elim
            (.error .missingCurrentPriceError) .ok) ∧
    (∀ (x : SNSample) (ys : List SNSample) (cp : Option BN) (lu : Option Int)
        (time : Int),
      (∀ z ∈ x :: ys, 0 < z.date ∧ z.date ≤ time) →
      SNState.getHistoricalPrice ⟨x :: ys, cp, lu⟩ time
        = (SNState.getCurrentPrice ⟨x :: ys, cp, lu⟩).elim
            (.error .missingCurrentPriceError) .ok) := by
  constructor
  · intro x ys cp lu time hall
    have htruthy : ∀ s ∈ (x :: ys).map tdNumSample,
        (fun s => jsTruthy s.date) s = true := by
      intro s hs
      obtain ⟨z, hz, rfl⟩ := List.mem_map.mp hs
      have := (hall z hz).1
      simp only [tdNumSample, jsTruthy, decide_eq_true_eq]
      omega
    have hfind1 : ((x :: ys).map tdNumSample).find? (fun s => jsTruthy s.date)
        = some (tdNumSample x) := by
      rw [find?_eq_head _ _ htruthy, List.map_cons, List.head?_cons]
    have hlt0 : jsLtNum time (tdNumSample x).date = false := by
      simp only [tdNumSample, jsLtNum, decide_eq_false_iff_not, not_lt]
      exact (hall x (List.mem_cons_self x ys)).2
    have hfind2 : ((x :: ys).map tdNumSample).find?
        (fun s => jsLtNum time s.date) = none := by
      rw [List.find?_eq_none]
      intro s hs
      obtain ⟨z, hz, rfl⟩ := List.mem_map.mp hs
      simp only [tdNumSample, jsLtNum, decide_eq_true_eq, not_lt]
      exact (hall z hz).2
    simp only [TDState.getHistoricalPrice, lastUpdateTimeIsUndefined,
      Bool.false_eq_true, if_false, hfind1, hlt0, hfind2, TDState.getCurrentPrice]
    cases cp <;> rfl
  · intro x ys cp lu time hall
    have htruthy : ∀ s ∈ x :: ys,
        (fun s : SNSample => decide (s.date ≠ 0)) s = true := by
      intro s hs
      have := (hall s hs).1
      simp only [decide_eq_true_eq]
      omega
    have hfind1 : (x :: ys).find? (fun s => decide (s.date ≠ 0)) = some x := by
      rw [find?_eq_head _ _ htruthy, List.head?_cons]
    have hlt0 : decide (time < x.date) = false := by
      simp only [decide_eq_false_iff_not, not_lt]
      exact (hall x (List.mem_cons_self x ys)).2
    have hidx : jsFindIndex (fun s : SNSample => decide (time < s.date)) (x :: ys)
        = -1 := by
      apply jsFindIndex_neg_one
      intro z hz
      simp only [decide_eq_false_iff_not, not_lt]
      exact (hall z hz).2
    simp only [SNState.getHistoricalPrice, lastUpdateTimeIsUndefined,
      Bool.false_eq_true, if_false, hfind1, hidx, SNState.getCurrentPrice]
    rw [if_neg (not_lt.mpr (hall x (List.mem_cons_self x ys)).2),
      show snMatchAt (x :: ys) (-1) = none from rfl]
    cases cp <;> rfl

/-- Witness for C4 at concrete inputs: on the series
[(100, 10), (200, 20), (300, 30)] queried at 350 (after the newest
sample), both resolvers return the current price 30, and with an absent
current price the Rule-B resolver fails with `MissingCurrentPriceError`. -/
theorem c4_at_or_after_newest_witness :
    TDState.getHistoricalPrice
      ⟨[⟨.num 100, 10⟩, ⟨.num 200, 20⟩, ⟨.num 300, 30⟩], some 30, some 0⟩ 350
      = .ok 30 ∧
    SNState.getHistoricalPrice
      ⟨[⟨100, 10⟩, ⟨200, 20⟩, ⟨300, 30⟩], some 30, some 0⟩ 350 = .ok 30 ∧
    SNState.getHistoricalPrice
      ⟨[⟨100, 10⟩, ⟨200, 20⟩, ⟨300, 30⟩], none, some 0⟩ 350
      = .error .missingCurrentPriceError := by
  refine ⟨?_, ?_, ?_⟩
  · exact c4_at_or_after_newest.1 (100, 10) [(200, 20), (300, 30)] (some 30)
      (some 0) 350 (by decide)
  · exact c4_at_or_after_newest.2 ⟨100, 10⟩ [⟨200, 20⟩, ⟨300, 30⟩] (some 30)
      (some 0) 350 (by decide)
  · exact c4_at_or_after_newest.2 ⟨100, 10⟩ [⟨200, 20⟩, ⟨300, 30⟩] none
      (some 0) 350 (by decide)

/-- Claim C7: for both adapters, on a non-empty series of
positively-timestamped samples, a query time strictly before every
sample's timestamp (in particular before the earliest retained one) makes
`getHistoricalPrice` fail with `BeforeLookbackWindowError`. -/
theorem c7_before_lookback_error :
    (∀ (x : Int × Int) (ys : List (Int × Int)) (cp : Option BN) (lu : Option Int)
        (time : Int),
      (∀ z ∈ x :: ys, 0 < z.1 ∧ time < z.1) →
      TDState.getHistoricalPrice ⟨(x :: ys).map tdNumSample, cp, lu⟩ time
        = .error .beforeLookbackWindowError) ∧
    (∀ (x : SNSample) (ys : List SNSample) (cp : Option BN) (lu : Option Int)
        (time : Int),
      (∀ z ∈ x :: ys, 0 < z.date ∧ time < z.date) →
      SNState.getHistoricalPrice ⟨x :: ys, cp, lu⟩ time
        = .error .beforeLookbackWindowError) := by
  constructor
  · intro x ys cp lu time hall
    have htruthy : ∀ s ∈ (x :: ys).map tdNumSample,
        (fun s => jsTruthy s.date) s = true := by
      intro s hs
      obtain ⟨z, hz, rfl⟩ := List.mem_map.mp hs
      have := (hall z hz).1
      simp only [tdNumSample, jsTruthy, decide_eq_true_eq]
      omega
    have hfind1 : ((x :: ys).map tdNumSample).find? (fun s => jsTruthy s.date)
        = some (tdNumSample x) := by
      rw [find?_eq_head _ _ htruthy, List.map_cons, List.head?_cons]
    have hlt0 : jsLtNum time (tdNumSample x).date = true := by
      simp only [tdNumSample, jsLtNum, decide_eq_true_eq]
      exact (hall x (List.mem_cons_self x ys)).2
    simp only [TDState.getHistoricalPrice, lastUpdateTimeIsUndefined,
      Bool.false_eq_true, if_false, hfind1, hlt0, if_true]
  · intro x ys cp lu time hall
    have htruthy : ∀ s ∈ x :: ys,
        (fun s : SNSample => decide (s.date ≠ 0)) s = true := by
      intro s hs
      have := (hall s hs).1
      simp only [decide_eq_true_eq]
      omega
    have hfind1 : (x :: ys).find? (fun s => decide (s.date ≠ 0)) = some x := by
      rw [find?_eq_head _ _ htruthy, List.head?_cons]
    have hlt0 : decide (time < x.date) = true := by
      simp only [decide_eq_true_eq]
      exact (hall x (List.mem_cons_self x ys)).2
    simp only [SNState.getHistoricalPrice, lastUpdateTimeIsUndefined,
      Bool.false_eq_true, if_false, hfind1]
    rw [if_pos (hall x (List.mem_cons_self x ys)).2]

/-- Witness for C7 at concrete inputs: on the series
[(100, 10), (200, 20), (300, 30)] queried at 50 (before the earliest
retained timestamp 100), both resolvers fail with
`BeforeLookbackWindowError`. -/
theorem c7_before_lookback_error_witness :
    TDState.getHistoricalPrice
      ⟨[⟨.num 100, 10⟩, ⟨.num 200, 20⟩, ⟨.num 300, 30⟩], some 30, some 0⟩ 50
      = .error .beforeLookbackWindowError ∧
    SNState.getHistoricalPrice
      ⟨[⟨100, 10⟩, ⟨200, 20⟩, ⟨300, 30⟩], some 30, some 0⟩ 50
      = .error .beforeLookbackWindowError := by
  refine ⟨?_, ?_⟩
  · exact c7_before_lookback_error.1 (100, 10) [(200, 20), (300, 30)] (some 30)
      (some 0) 50 (by decide)
  · exact c7_before_lookback_error.2 ⟨100, 10⟩ [⟨200, 20⟩, ⟨300, 30⟩] (some 30)
      (some 0) 50 (by decide)

/-- Claim C9: `convertPriceFeedDecimals` truncates the raw decimal string
to its first `priceFeedDecimals` characters before scaling: for "183.345"
with `priceFeedDecimals = 2` the string kept is "18" and the stored
integer is 1800 = 18 * 10 ^ 2, silently corrupting the value (it is not
18334, which 183.34 would scale to). -/
theorem c9_truncation_defect :
    convertPriceFeedDecimals 2 "183.345" = some 1800 ∧
    "183.345".take 2 = "18" ∧
    parseFixed "18" 2 = some 1800 ∧
    convertPriceFeedDecimals 2 "183.345" ≠ some 18334 :=
  ⟨rfl, rfl, rfl, by decide⟩

/-- Counterexample to claim C3 as stated: a successful
StatisticsNetherlands update on a response whose samples arrive
newest-first — the order the TwelveData source's own comment documents
for its API, and which neither adapter sorts or validates — leaves
`getCurrentPrice()` at the price of the LAST stored sample (10·10^18),
not the price of the newest sample, the one with the greatest timestamp
(20·10^18). -/
theorem c3_counterexample_descending :
    (SNState.update ⟨0, 18, 900⟩ SNState.init 1000000000 snRespDescending).2
      = (true, .ok ()) ∧
    newestSample? snStateDescending.priceHistory
      = some ⟨1687399200, 20 * 10 ^ 18⟩ ∧
    snStateDescending.getCurrentPrice = some (10 * 10 ^ 18) ∧
    snStateDescending.getCurrentPrice
      ≠ (newestSample? snStateDescending.priceHistory).map SNSample.price :=
  ⟨rfl, rfl, rfl, by decide⟩

/-- Claim C3, amended: immediately after every successful `update()`,
`getCurrentPrice()` equals the price of the LAST sample of the stored
series (both adapters); when the stored series is ordered oldest-to-newest
— the spec's data-model invariant, which the code does not enforce — that
sample's timestamp is maximal, so `getCurrentPrice()` is the price of a
newest sample. -/
theorem c3_current_is_last_sample :
    (∀ (cfg : TDConfig) (st st' : TDState) (now : Int) (resp : Option TDResponse),
      TDState.update cfg st now resp = (st', true, .ok ()) →
      ∃ lastS, st'.priceHistory.getLast? = some lastS ∧
        st'.getCurrentPrice = some lastS.closePrice) ∧
    (∀ (cfg : SNConfig) (st st' : SNState) (now : Int) (resp : Option SNResponse),
      SNState.update cfg st now resp = (st', true, .ok ()) →
      ∃ lastS, st'.priceHistory.getLast? = some lastS ∧
        st'.getCurrentPrice = some lastS.price ∧
        (List.Sorted (· ≤ ·) (st'.priceHistory.map SNSample.date) →
          ∀ s ∈ st'.priceHistory, s.date ≤ lastS.date)) := by
  constructor
  · intro cfg st st' now resp h
    obtain ⟨vals, periods, lastP, -, -, hlast, rfl⟩ :=
      tdUpdate_ok_shape cfg st now resp st' h
    exact ⟨lastP, hlast, rfl⟩
  · intro cfg st st' now resp h
    obtain ⟨vals, periods, lastP, -, -, hlast, rfl⟩ :=
      snUpdate_ok_shape cfg st now resp st' h
    exact ⟨lastP, hlast, rfl,
      fun hs s hsmem => le_date_getLast_of_sorted periods lastP hlast hs s hsmem⟩

/-- Witness for the amended C3 at a concrete input: a successful
StatisticsNetherlands update on an oldest-to-newest response stores
[(1677031200, 10·10^18), (1687399200, 20·10^18)] and `getCurrentPrice()`
is the last — and newest — sample's price. -/
theorem c3_current_is_last_sample_witness :
    ∃ lastS,
      (SNState.mk [⟨1677031200, 10 * 10 ^ 18⟩, ⟨1687399200, 20 * 10 ^ 18⟩]
        (some (20 * 10 ^ 18)) (some 1000000000)).priceHistory.getLast? = some lastS ∧
      (SNState.mk [⟨1677031200, 10 * 10 ^ 18⟩, ⟨1687399200, 20 * 10 ^ 18⟩]
        (some (20 * 10 ^ 18)) (some 1000000000)).getCurrentPrice = some lastS.price ∧
      (List.Sorted (· ≤ ·)
          ((SNState.mk [⟨1677031200, 10 * 10 ^ 18⟩, ⟨1687399200, 20 * 10 ^ 18⟩]
            (some (20 * 10 ^ 18)) (some 1000000000)).priceHistory.map SNSample.date) →
        ∀ s ∈ (SNState.mk [⟨1677031200, 10 * 10 ^ 18⟩, ⟨1687399200, 20 * 10 ^ 18⟩]
            (some (20 * 10 ^ 18)) (some 1000000000)).priceHistory,
          s.date ≤ lastS.date) :=
  c3_current_is_last_sample.2 ⟨0, 18, 900⟩ SNState.init
    (SNState.mk [⟨1677031200, 10 * 10 ^ 18⟩, ⟨1687399200, 20 * 10 ^ 18⟩]
      (some (20 * 10 ^ 18)) (some 1000000000)) 1000000000
    (some ⟨some [⟨"2023MM01", "10"⟩, ⟨"2023MM05", "20"⟩]⟩) rfl

/-- Claim C10 (implicit): a successful TwelveData update stores each
sample's `date` as the raw `datetime` string of the response; against
such a non-numeric string every numeric comparison `time < date` is
false, so for every query time the resolver skips the
before-lookback-window error and, finding no match, returns
`currentPrice`. -/
theorem c10_raw_string_dates (cfg : TDConfig) (st st' : TDState) (now : Int)
    (vals : List TDRawValue)
    (hupd : TDState.update cfg st now (some ⟨some vals⟩) = (st', true, .ok ()))
    (hstr : ∀ v ∈ vals, v.datetime ≠ "" ∧ jsStringToNum v.datetime = none) :
    st'.priceHistory.map TDSample.date = vals.map (fun v => JsVal.str v.datetime) ∧
    ∃ c, st'.currentPrice = some c ∧ ∀ time : Int,
      st'.getHistoricalPrice time = .ok c ∧
      st'.getHistoricalPrice time ≠ .error .beforeLookbackWindowError := by
  obtain ⟨vals', periods, lastP, hvals', hmapM, hlast, rfl⟩ :=
    tdUpdate_ok_shape cfg st now (some ⟨some vals⟩) st' hupd
  have hveq : vals' = vals := by
    cases vals with
    | nil => simp [tdRawValues] at hvals'
    | cons v tl =>
        rw [show tdRawValues (some ⟨some (v :: tl)⟩) = some (v :: tl) from rfl]
          at hvals'
        exact (Option.some.inj hvals').symm
  subst hveq
  have hmapeq : periods.map TDSample.date = vals'.map (fun v => JsVal.str v.datetime) := by
    refine mapM_option_project _ _ _ ?_ vals' periods hmapM
    intro x y hf
    cases hconv : convertPriceFeedDecimals cfg.priceFeedDecimals x.close with
    | none => rw [hconv] at hf; simp at hf
    | some p =>
        rw [hconv, Option.map_some'] at hf
        rw [← Option.some.inj hf]
  have hdates : ∀ s ∈ periods, jsTruthy s.date = true
      ∧ ∀ time : Int, jsLtNum time s.date = false := by
    intro s hs
    obtain ⟨x, hx, hf⟩ := mapM_option_forall _ vals' periods hmapM s hs
    have hsdate : s.date = .str x.datetime := by
      cases hconv : convertPriceFeedDecimals cfg.priceFeedDecimals x.close with
      | none => rw [hconv] at hf; simp at hf
      | some p =>
          rw [hconv, Option.map_some'] at hf
          rw [← Option.some.inj hf]
    rw [hsdate]
    refine ⟨by simp [jsTruthy, (hstr x hx).1], fun time => ?_⟩
    rw [jsLtNum, (hstr x hx).2]
  cases periods with
  | nil => simp at hlast
  | cons p0 ps =>
      refine ⟨hmapeq, lastP.closePrice, rfl, fun time => ?_⟩
      have hfind1 : ((p0 :: ps).find? fun s => jsTruthy s.date) = some p0 := by
        rw [find?_eq_head _ _ (fun s hs => (hdates s hs).1), List.head?_cons]
      have hlt0 : jsLtNum time p0.date = false :=
        (hdates p0 (List.mem_cons_self p0 ps)).2 time
      have hfind2 : ((p0 :: ps).find? fun s => jsLtNum time s.date) = none := by
        rw [List.find?_eq_none]
        intro s hs
        rw [(hdates s hs).2 time]
        simp
      have hmain : TDState.getHistoricalPrice
          ⟨p0 :: ps, some lastP.closePrice, some now⟩ time = .ok lastP.closePrice := by
        simp only [TDState.getHistoricalPrice, lastUpdateTimeIsUndefined,
          Bool.false_eq_true, if_false, hfind1, hlt0, hfind2]
      exact ⟨hmain, by rw [hmain]; simp⟩

/-- Witness for C10 at a concrete input: a successful TwelveData update on
the documented response shape (datetime strings "2023-02-10 14:30:00" and
"2023-02-10 15:30:00") stores the raw strings as dates, and the resolver
then answers the numeric query 150 with the current price. -/
theorem c10_raw_string_dates_witness :
    (TDState.mk
        [⟨.str "2023-02-10 14:30:00", 10 ^ 18⟩,
         ⟨.str "2023-02-10 15:30:00", 2 * 10 ^ 18⟩]
        (some (2 * 10 ^ 18)) (some 1000)).priceHistory.map TDSample.date
      = [TDRawValue.mk "2023-02-10 14:30:00" "1",
         TDRawValue.mk "2023-02-10 15:30:00" "2"].map (fun v => JsVal.str v.datetime) ∧
    ∃ c,
      (TDState.mk
        [⟨.str "2023-02-10 14:30:00", 10 ^ 18⟩,
         ⟨.str "2023-02-10 15:30:00", 2 * 10 ^ 18⟩]
        (some (2 * 10 ^ 18)) (some 1000)).currentPrice = some c ∧
      ∀ time : Int,
        (TDState.mk
          [⟨.str "2023-02-10 14:30:00", 10 ^ 18⟩,
           ⟨.str "2023-02-10 15:30:00", 2 * 10 ^ 18⟩]
          (some (2 * 10 ^ 18)) (some 1000)).getHistoricalPrice time = .ok c ∧
        (TDState.mk
          [⟨.str "2023-02-10 14:30:00", 10 ^ 18⟩,
           ⟨.str "2023-02-10 15:30:00", 2 * 10 ^ 18⟩]
          (some (2 * 10 ^ 18)) (some 1000)).getHistoricalPrice time
          ≠ .error .beforeLookbackWindowError :=
  c10_raw_string_dates ⟨7, 18, 43200⟩ TDState.init
    (TDState.mk
      [⟨.str "2023-02-10 14:30:00", 10 ^ 18⟩,
       ⟨.str "2023-02-10 15:30:00", 2 * 10 ^ 18⟩]
      (some (2 * 10 ^ 18)) (some 1000)) 1000
    [TDRawValue.mk "2023-02-10 14:30:00" "1", TDRawValue.mk "2023-02-10 15:30:00" "2"]
    rfl (by decide)

end PriceFeed
